import Mathlib

/-!
Verification of `server.py`, a stdlib-only Python HTTP hub exposing
CEC television control and Wake-on-LAN.  The Python functions are
shallowly embedded as Lean functions over `List Char` / `String`;
machine bytes become `Nat` values below 256; the socket and the
`cec-client` subprocess are abstracted as explicit outcome parameters,
and the network side effects of a request are recorded in an explicit
trace value.
-/

namespace Netmaster

/-! ## Python string primitives used by the source -/

/-- Value of a hexadecimal digit character, as accepted by Python
`bytes.fromhex`: 0-9, a-f, A-F. -/
def hexVal (c : Char) : Option Nat :=
  if '0' ≤ c ∧ c ≤ '9' then some (c.toNat - '0'.toNat)
  else if 'a' ≤ c ∧ c ≤ 'f' then some (c.toNat - 'a'.toNat + 10)
  else if 'A' ≤ c ∧ c ≤ 'F' then some (c.toNat - 'A'.toNat + 10)
  else none

/-- ASCII whitespace skipped by Python `bytes.fromhex` between byte pairs. -/
def isHexWs (c : Char) : Bool :=
  c == ' ' || c == '\t' || c == '\n' || c == '\r' || c == '\x0b' || c == '\x0c'

/-- Core of Python `bytes.fromhex`: whitespace may separate byte pairs,
each byte is two adjacent hex digits; any other shape is a ValueError,
modelled as `none`. -/
def fromhexAux : List Char → Option (List Nat)
  | [] => some []
  | c :: cs =>
    if isHexWs c then fromhexAux cs
    else
      match cs with
      | [] => none
      | c2 :: cs2 =>
        match hexVal c, hexVal c2 with
        | some hi, some lo => (fromhexAux cs2).map (fun bs => (16 * hi + lo) :: bs)
        | _, _ => none

/-- Python `bytes.fromhex` on the characters of a string. -/
def bytes_fromhex (s : List Char) : Option (List Nat) :=
  fromhexAux s

/-- `leadsWith pat s` is true when `pat` is an initial run of `s`
(the prefix test used by substring search and replacement). -/
def leadsWith : List Char → List Char → Bool
  | [], _ => true
  | _ :: _, [] => false
  | a :: as, b :: bs => a == b && leadsWith as bs

/-- `containsSeq needle hay`: Python `needle in hay` substring test. -/
def containsSeq (needle : List Char) : List Char → Bool
  | [] => needle.isEmpty
  | c :: cs => leadsWith needle (c :: cs) || containsSeq needle cs

/-- Fuel-driven core of Python `str.replace(old, new)`: replace
non-overlapping occurrences of `old`, left to right.  The fuel is at
least the length of the string, which bounds the recursion. -/
def pyReplaceGo (old new : List Char) : Nat → List Char → List Char
  | _, [] => []
  | 0, s => s
  | fuel + 1, c :: cs =>
    if !old.isEmpty && leadsWith old (c :: cs) then
      new ++ pyReplaceGo old new fuel ((c :: cs).drop old.length)
    else
      c :: pyReplaceGo old new fuel cs

/-- Python `s.replace(old, new)` for a non-empty pattern `old`
(the source only replaces the one-character patterns ":" and "-"). -/
def pyReplace (s old new : List Char) : List Char :=
  pyReplaceGo old new s.length s

/-! ## Wake-on-LAN (`send_wol`) -/

/-- Configured MAC of the PC, from the source configuration block. -/
def PC_MAC : String := "AA:BB:CC:DD:EE:FF"

/-- Configured broadcast destination address. -/
def PC_BROADCAST : String := "255.255.255.255"

/-- Configured Wake-on-LAN UDP port. -/
def WOL_PORT : Nat := 9

/-- The delimiter stripping in `send_wol`:
`mac.replace(":", "").replace("-", "")`. -/
def stripDelims (s : List Char) : List Char :=
  pyReplace (pyReplace s [':'] []) ['-'] []

/-- `bytes.fromhex(mac.replace(":", "").replace("-", ""))`. -/
def macDecode (mac : String) : Option (List Nat) :=
  bytes_fromhex (stripDelims mac.data)

/-- The magic packet built by `send_wol`:
`b"\xff" * 6 + mac_bytes * 16`. -/
def magicPacket (mb : List Nat) : List Nat :=
  List.replicate 6 0xFF ++ (List.replicate 16 mb).flatten

/-- Outcome of each socket operation inside the `with` block, abstracting
the OS: `Except.error msg` models an OSError whose `str` is `msg`. -/
structure SockEnv where
  create : Except String Unit
  setopt : Except String Unit
  sendto : Except String Unit

/-- Environment in which every socket operation succeeds. -/
def okSockEnv : SockEnv := ⟨Except.ok (), Except.ok (), Except.ok ()⟩

/-- Network-side-effect record of one `send_wol` call: whether a socket
was opened, whether it was closed again, and the datagram (payload,
destination address, destination port) handed to `sendto`, if any. -/
structure Trace where
  opened : Bool
  closed : Bool
  sent : Option (List Nat × String × Nat)

/-- Trace of a call that performed no network operation at all. -/
def noTrace : Trace := ⟨false, false, none⟩

/-- Embedding of `send_wol(mac)`.  `fhErr` stands for the text of the
ValueError raised by `bytes.fromhex` on a malformed argument (its exact
wording is produced by the Python runtime and is irrelevant here); the
catch-all `except Exception` of the source makes every path return a
`(bool, str)` pair, and the `with` block closes the socket on every path
that opened it. -/
def send_wol (fhErr : String) (env : SockEnv) (mac : String) :
    (Bool × String) × Trace :=
  match macDecode mac with
  | none => ((false, fhErr), noTrace)
  | some mac_bytes =>
    if mac_bytes.length ≠ 6 then ((false, "invalid MAC address"), noTrace)
    else
      let packet := magicPacket mac_bytes
      match env.create with
      | Except.error e => ((false, e), noTrace)
      | Except.ok _ =>
        match env.setopt with
        | Except.error e => ((false, e), ⟨true, true, none⟩)
        | Except.ok _ =>
          match env.sendto with
          | Except.error e => ((false, e), ⟨true, true, none⟩)
          | Except.ok _ =>
            ((true, "WoL packet sent to " ++ mac),
             ⟨true, true, some (packet, PC_BROADCAST, WOL_PORT)⟩)

/-- First failing socket operation of an environment, in the order
socket creation, option setting, send; `none` when all succeed.  This is
the error that the `except` clause of `send_wol` would observe. -/
def firstSockError (env : SockEnv) : Option String :=
  match env.create with
  | Except.error e => some e
  | Except.ok _ =>
    match env.setopt with
    | Except.error e => some e
    | Except.ok _ =>
      match env.sendto with
      | Except.error e => some e
      | Except.ok _ => none

/-! ## Claim-side description of valid MAC strings

A six-octet MAC string in one delimiter style is described by a list of
digit pairs joined with a single delimiter character.  These definitions
belong to the claims, not to the source. -/

/-- The characters of octet pairs joined by the delimiter `d`:
`[(a,b),(c,e)]` becomes `a b d c e`. -/
def delimited (d : Char) : List (Char × Char) → List Char
  | [] => []
  | [p] => [p.1, p.2]
  | p :: ps => p.1 :: p.2 :: d :: delimited d ps

/-- The same octet pairs with no delimiter at all. -/
def octetsJoin : List (Char × Char) → List Char
  | [] => []
  | p :: ps => p.1 :: p.2 :: octetsJoin ps

/-- The byte values encoded by a list of hex-digit pairs. -/
def octetsVal (ps : List (Char × Char)) : List Nat :=
  ps.map (fun p => 16 * (hexVal p.1).getD 0 + (hexVal p.2).getD 0)

/-! ## CEC bridge (`cec_send`, `tv_on`, `tv_off`, `tv_status`) -/

/-- CEC logical address of the television, from the configuration block. -/
def CEC_DEVICE : String := "0"

/-- Abstracted behaviour of the `subprocess.run(["cec-client", ...])`
call: normal exit with a return code and captured stdout, a missing
binary (FileNotFoundError), or an expired 10-second wait
(subprocess.TimeoutExpired). -/
inductive SubprocOutcome where
  | exited (returncode : Int) (stdout : String)
  | notFound
  | timedOut

/-- Whitespace stripped by Python `str.strip()` (ASCII part). -/
def isPySpace (c : Char) : Bool :=
  c == ' ' || c == '\t' || c == '\n' || c == '\r' || c == '\x0b' || c == '\x0c'

/-- Python `str.strip()` on a character list. -/
def pyStrip (s : List Char) : List Char :=
  ((s.dropWhile isPySpace).reverse.dropWhile isPySpace).reverse

/-- Python `str.strip()` on a string. -/
def pyStripS (s : String) : String :=
  String.mk (pyStrip s.data)

/-- Embedding of `cec_send(command)`: the subprocess receives
`command + "\n"` on stdin; its behaviour is the abstracted outcome. -/
def cec_send (proc : SubprocOutcome) (_command : String) : Bool × String :=
  match proc with
  | SubprocOutcome.exited code out => (code == 0, pyStripS out)
  | SubprocOutcome.notFound => (false, "cec-client not found")
  | SubprocOutcome.timedOut => (false, "cec-client timed out")

/-- Embedding of `tv_on()`. -/
def tv_on (proc : SubprocOutcome) : Bool × String :=
  let r := cec_send proc ("on " ++ CEC_DEVICE)
  (r.1, if r.1 then "TV turned on" else r.2)

/-- Embedding of `tv_off()`. -/
def tv_off (proc : SubprocOutcome) : Bool × String :=
  let r := cec_send proc ("standby " ++ CEC_DEVICE)
  (r.1, if r.1 then "TV turned off" else r.2)

/-- Python `str.lower()` (ASCII case mapping, which is all the power
status parser relies on). -/
def pyLower (s : List Char) : List Char :=
  s.map Char.toLower

/-- Python `str.splitlines()` worker; `cur` is the current line,
reversed.  Line breaks are the characters Python recognises. -/
def slGo (cur : List Char) : List Char → List (List Char)
  | [] => if cur.isEmpty then [] else [cur.reverse]
  | '\r' :: '\n' :: rest => cur.reverse :: slGo [] rest
  | '\r' :: rest => cur.reverse :: slGo [] rest
  | '\n' :: rest => cur.reverse :: slGo [] rest
  | '\x0b' :: rest => cur.reverse :: slGo [] rest
  | '\x0c' :: rest => cur.reverse :: slGo [] rest
  | '\x1c' :: rest => cur.reverse :: slGo [] rest
  | '\x1d' :: rest => cur.reverse :: slGo [] rest
  | '\x1e' :: rest => cur.reverse :: slGo [] rest
  | '\x85' :: rest => cur.reverse :: slGo [] rest
  | '\u2028' :: rest => cur.reverse :: slGo [] rest
  | '\u2029' :: rest => cur.reverse :: slGo [] rest
  | c :: rest => slGo (c :: cur) rest

/-- Python `str.splitlines()`. -/
def pySplitlines (s : List Char) : List (List Char) :=
  slGo [] s

/-- Fuel-driven core of Python `str.split(sep)` for a non-empty
separator: non-overlapping leftmost splits. -/
def pySplitGo (sep : List Char) : Nat → List Char → List (List Char)
  | _, [] => [[]]
  | 0, s => [s]
  | fuel + 1, c :: cs =>
    if !sep.isEmpty && leadsWith sep (c :: cs) then
      [] :: pySplitGo sep fuel ((c :: cs).drop sep.length)
    else
      match pySplitGo sep fuel cs with
      | [] => [[c]]
      | p :: ps => (c :: p) :: ps

/-- Python `s.split(sep)` for a non-empty separator; the result is
never empty, so indexing with `[-1]` is the last element. -/
def pySplit (s sep : List Char) : List (List Char) :=
  pySplitGo sep s.length s

/-- The marker searched for in each output line: `"power status:"`. -/
def MARKER : List Char := "power status:".data

/-- The substring `"on"` looked for after the marker. -/
def ON_SUB : List Char := "on".data

/-- The line loop of `tv_status`: the first line whose lowercase form
contains the marker decides the state; `"on"` is searched in the part
after the last occurrence of the marker (`split(...)[-1]`). -/
def powerFromLines : List (List Char) → Option String
  | [] => none
  | line :: rest =>
    let lower := pyLower line
    if containsSeq MARKER lower then
      some (if containsSeq ON_SUB ((pySplit lower MARKER).getLastD [])
            then "on" else "off")
    else powerFromLines rest

/-- Embedding of `tv_status()`. -/
def tv_status (proc : SubprocOutcome) : Bool × String :=
  let r := cec_send proc ("pow " ++ CEC_DEVICE)
  if !r.1 then (false, r.2)
  else
    match powerFromLines (pySplitlines r.2.data) with
    | some s => (true, s)
    | none => (false, "could not parse power status: " ++ r.2)

/-! ## HTTP layer (`ROUTES`, `Handler._handle`) -/

/-- JSON values, as far as the response bodies of the server need. -/
inductive Json where
  | bool (b : Bool)
  | str (s : String)
  | obj (fields : List (String × Json))

/-- Field lookup in a JSON object; `none` on a missing key or a
non-object. -/
def jsonField : Json → String → Option Json
  | Json.obj fs, k => (fs.find? (fun f => f.1 == k)).map (fun f => f.2)
  | _, _ => none

/-- The four handler functions installed in the route table. -/
inductive Action where
  | tvStatus
  | tvOn
  | tvOff
  | wol

/-- The route table of the source, keyed by (method, path). -/
def ROUTES : List ((String × String) × Action) :=
  [(("GET", "/tv/status"), Action.tvStatus),
   (("POST", "/tv/on"), Action.tvOn),
   (("POST", "/tv/off"), Action.tvOff),
   (("POST", "/wol"), Action.wol)]

/-- `ROUTES.get((method, self.path))`. -/
def routeLookup (method path : String) : Option Action :=
  (ROUTES.find? (fun e => e.1.1 == method && e.1.2 == path)).map (fun e => e.2)

/-- Embedding of `Handler._handle(method)`: route lookup, handler call,
response shaping.  The request body is not a parameter because the
source never reads it; `POST /wol` always calls `send_wol()` with the
default `PC_MAC`.  The result is the (status, body) passed to
`_respond`, paired with the network trace of the call. -/
def Handler_handle (fhErr : String) (env : SockEnv) (proc : SubprocOutcome)
    (method path : String) : (Nat × Json) × Trace :=
  match routeLookup method path with
  | none => ((404, Json.obj [("error", Json.str "not found")]), noTrace)
  | some a =>
    let rt : (Bool × String) × Trace :=
      match a with
      | Action.tvStatus => (tv_status proc, noTrace)
      | Action.tvOn => (tv_on proc, noTrace)
      | Action.tvOff => (tv_off proc, noTrace)
      | Action.wol => send_wol fhErr env PC_MAC
    ((if rt.1.1 then 200 else 500,
      Json.obj [("ok", Json.bool rt.1.1), ("message", Json.str rt.1.2)]),
     rt.2)

/-! ## Helper lemmas -/

theorem leadsWith_single (d c : Char) (cs : List Char) :
    leadsWith [d] (c :: cs) = (d == c) := by
  simp [leadsWith]

theorem pyReplaceGo_single (d : Char) :
    ∀ (fuel : Nat) (s : List Char), s.length ≤ fuel →
      pyReplaceGo [d] [] fuel s = s.filter (fun c => c != d) := by
  intro fuel
  induction fuel with
  | zero =>
    intro s hs
    cases s with
    | nil => rfl
    | cons c cs => simp at hs
  | succ n ih =>
    intro s hs
    cases s with
    | nil => rfl
    | cons c cs =>
      have hlen : cs.length ≤ n := Nat.le_of_succ_le_succ (by simpa using hs)
      by_cases hdc : d = c
      · subst hdc
        simp [pyReplaceGo, leadsWith_single, ih cs hlen, List.filter_cons]
      · have h1 : (d == c) = false := by simp [hdc]
        have h2 : (c != d) = true := by simp [bne_iff_ne]; exact fun h => hdc h.symm
        simp [pyReplaceGo, leadsWith_single, ih cs hlen, List.filter_cons, h1, h2]

theorem pyReplace_single (s : List Char) (d : Char) :
    pyReplace s [d] [] = s.filter (fun c => c != d) :=
  pyReplaceGo_single d s.length s (Nat.le_refl _)

theorem hexVal_isSome_not_colon {c : Char} (h : (hexVal c).isSome) :
    (c == ':') = false := by
  cases hc : c == ':' with
  | false => rfl
  | true =>
    have : c = ':' := eq_of_beq hc
    subst this
    exact absurd h (by decide)

theorem hexVal_isSome_not_hyphen {c : Char} (h : (hexVal c).isSome) :
    (c == '-') = false := by
  cases hc : c == '-' with
  | false => rfl
  | true =>
    have : c = '-' := eq_of_beq hc
    subst this
    exact absurd h (by decide)

theorem hexVal_isSome_not_ws {c : Char} (h : (hexVal c).isSome) :
    isHexWs c = false := by
  cases hw : isHexWs c with
  | false => rfl
  | true =>
    exfalso
    simp only [isHexWs, Bool.or_eq_true, beq_iff_eq] at hw
    rcases hw with ((((rfl | rfl) | rfl) | rfl) | rfl) | rfl <;>
      exact absurd h (by decide)

theorem mem_octetsJoin {c : Char} {ps : List (Char × Char)} :
    c ∈ octetsJoin ps → ∃ p ∈ ps, c = p.1 ∨ c = p.2 := by
  induction ps with
  | nil => intro h; simp [octetsJoin] at h
  | cons p rest ih =>
    intro h
    rcases List.mem_cons.mp h with rfl | h2
    · exact ⟨p, List.mem_cons_self p rest, Or.inl rfl⟩
    · rcases List.mem_cons.mp h2 with rfl | h3
      · exact ⟨p, List.mem_cons_self p rest, Or.inr rfl⟩
      · obtain ⟨q, hq, hc⟩ := ih h3
        exact ⟨q, List.mem_cons_of_mem p hq, hc⟩

theorem mem_delimited {c d : Char} {ps : List (Char × Char)} :
    c ∈ delimited d ps → c = d ∨ ∃ p ∈ ps, c = p.1 ∨ c = p.2 := by
  induction ps with
  | nil => intro h; simp [delimited] at h
  | cons p rest ih =>
    intro h
    cases rest with
    | nil =>
      rcases List.mem_cons.mp h with rfl | h2
      · exact Or.inr ⟨p, List.mem_cons_self p [], Or.inl rfl⟩
      · rcases List.mem_cons.mp h2 with rfl | h3
        · exact Or.inr ⟨p, List.mem_cons_self p [], Or.inr rfl⟩
        · simp at h3
    | cons q rs =>
      rcases List.mem_cons.mp h with rfl | h2
      · exact Or.inr ⟨p, List.mem_cons_self p (q :: rs), Or.inl rfl⟩
      · rcases List.mem_cons.mp h2 with rfl | h3
        · exact Or.inr ⟨p, List.mem_cons_self p (q :: rs), Or.inr rfl⟩
        · rcases List.mem_cons.mp h3 with rfl | h4
          · exact Or.inl rfl
          · rcases ih h4 with hd | ⟨r, hr, hc⟩
            · exact Or.inl hd
            · exact Or.inr ⟨r, List.mem_cons_of_mem p hr, hc⟩

theorem filter_delimited_drop (d : Char) (ps : List (Char × Char))
    (h : ∀ p ∈ ps, (p.1 == d) = false ∧ (p.2 == d) = false) :
    (delimited d ps).filter (fun c => c != d) = octetsJoin ps := by
  induction ps with
  | nil => rfl
  | cons p rest ih =>
    obtain ⟨h1, h2⟩ := h p (List.mem_cons_self p rest)
    have hrest := fun q hq => h q (List.mem_cons_of_mem p hq)
    have hp1 : (p.1 != d) = true := by simp [bne, h1]
    have hp2 : (p.2 != d) = true := by simp [bne, h2]
    have hdd : (d != d) = false := by simp
    cases rest with
    | nil =>
      show List.filter (fun c => c != d) [p.1, p.2] = [p.1, p.2]
      simp only [List.filter_cons, hp1, hp2]
      simp
    | cons q rs =>
      show List.filter (fun c => c != d) (p.1 :: p.2 :: d :: delimited d (q :: rs))
          = p.1 :: p.2 :: octetsJoin (q :: rs)
      simp only [List.filter_cons, hp1, hp2, hdd]
      rw [ih hrest]
      simp

theorem filter_delimited_keep (d e : Char) (hde : (d == e) = false)
    (ps : List (Char × Char))
    (h : ∀ p ∈ ps, (p.1 == e) = false ∧ (p.2 == e) = false) :
    (delimited d ps).filter (fun c => c != e) = delimited d ps := by
  rw [List.filter_eq_self]
  intro a ha
  rcases mem_delimited ha with rfl | ⟨p, hp, hc⟩
  · simp [bne, hde]
  · rcases hc with rfl | rfl
    · simp [bne, (h p hp).1]
    · simp [bne, (h p hp).2]

theorem filter_octetsJoin_keep (e : Char) (ps : List (Char × Char))
    (h : ∀ p ∈ ps, (p.1 == e) = false ∧ (p.2 == e) = false) :
    (octetsJoin ps).filter (fun c => c != e) = octetsJoin ps := by
  rw [List.filter_eq_self]
  intro a ha
  obtain ⟨p, hp, hc⟩ := mem_octetsJoin ha
  rcases hc with rfl | rfl
  · simp [bne, (h p hp).1]
  · simp [bne, (h p hp).2]

theorem stripDelims_delimited (d : Char) (hd : d = ':' ∨ d = '-')
    (ps : List (Char × Char))
    (hhex : ∀ p ∈ ps, (hexVal p.1).isSome ∧ (hexVal p.2).isSome) :
    stripDelims (delimited d ps) = octetsJoin ps := by
  have hcol : ∀ p ∈ ps, (p.1 == ':') = false ∧ (p.2 == ':') = false := fun p hp =>
    ⟨hexVal_isSome_not_colon (hhex p hp).1, hexVal_isSome_not_colon (hhex p hp).2⟩
  have hhyp : ∀ p ∈ ps, (p.1 == '-') = false ∧ (p.2 == '-') = false := fun p hp =>
    ⟨hexVal_isSome_not_hyphen (hhex p hp).1, hexVal_isSome_not_hyphen (hhex p hp).2⟩
  rcases hd with rfl | rfl
  · unfold stripDelims
    rw [pyReplace_single (delimited ':' ps) ':', filter_delimited_drop ':' ps hcol,
        pyReplace_single (octetsJoin ps) '-', filter_octetsJoin_keep '-' ps hhyp]
  · unfold stripDelims
    rw [pyReplace_single (delimited '-' ps) ':',
        filter_delimited_keep '-' ':' (by decide) ps hcol,
        pyReplace_single (delimited '-' ps) '-', filter_delimited_drop '-' ps hhyp]

theorem fromhexAux_octets :
    ∀ ps : List (Char × Char),
      (∀ p ∈ ps, (hexVal p.1).isSome ∧ (hexVal p.2).isSome) →
      fromhexAux (octetsJoin ps) = some (octetsVal ps) := by
  intro ps
  induction ps with
  | nil => intro _; rfl
  | cons p rest ih =>
    intro h
    obtain ⟨h1, h2⟩ := h p (List.mem_cons_self p rest)
    obtain ⟨hi, hhi⟩ := Option.isSome_iff_exists.mp h1
    obtain ⟨lo, hlo⟩ := Option.isSome_iff_exists.mp h2
    have hrest := ih (fun q hq => h q (List.mem_cons_of_mem p hq))
    show fromhexAux (p.1 :: p.2 :: octetsJoin rest) = _
    rw [fromhexAux.eq_def]
    simp only [hexVal_isSome_not_ws h1, Bool.false_eq_true, if_false]
    rw [hhi, hlo]
    simp only [hrest, Option.map_some']
    simp [octetsVal, hhi, hlo]

theorem flatten_replicate_length (n : Nat) (l : List Nat) :
    ((List.replicate n l).flatten).length = n * l.length := by
  induction n with
  | zero => simp
  | succ k ih => simp [List.replicate_succ, ih, Nat.succ_mul, Nat.add_comm]

theorem magicPacket_length (mb : List Nat) (h : mb.length = 6) :
    (magicPacket mb).length = 102 := by
  simp [magicPacket, flatten_replicate_length, h]

theorem magicPacket_take (mb : List Nat) :
    (magicPacket mb).take 6 = List.replicate 6 0xFF := by
  rw [magicPacket, List.take_left' (by simp)]

theorem magicPacket_drop (mb : List Nat) :
    (magicPacket mb).drop 6 = (List.replicate 16 mb).flatten := by
  rw [magicPacket, List.drop_left' (by simp)]

/-! ## Claims about `send_wol` -/

/-- C1: for every MAC string of six hexadecimal octets joined by colons
or by hyphens, `send_wol` decodes the six bytes, builds the payload of
exactly 102 bytes whose first 6 bytes are 0xFF and whose remaining 96
bytes are the decoded address repeated 16 times, and hands exactly that
payload to `sendto` for the configured broadcast destination. -/
theorem send_wol_valid_mac (fhErr : String) (d : Char) (hd : d = ':' ∨ d = '-')
    (ps : List (Char × Char)) (h6 : ps.length = 6)
    (hhex : ∀ p ∈ ps, (hexVal p.1).isSome ∧ (hexVal p.2).isSome) :
    macDecode (String.mk (delimited d ps)) = some (octetsVal ps)
    ∧ send_wol fhErr okSockEnv (String.mk (delimited d ps))
        = ((true, "WoL packet sent to " ++ String.mk (delimited d ps)),
           ⟨true, true, some (magicPacket (octetsVal ps), PC_BROADCAST, WOL_PORT)⟩)
    ∧ (magicPacket (octetsVal ps)).length = 102
    ∧ (magicPacket (octetsVal ps)).take 6 = List.replicate 6 0xFF
    ∧ (magicPacket (octetsVal ps)).drop 6 = (List.replicate 16 (octetsVal ps)).flatten := by
  have hdata : (String.mk (delimited d ps)).data = delimited d ps := rfl
  have hdec : macDecode (String.mk (delimited d ps)) = some (octetsVal ps) := by
    unfold macDecode bytes_fromhex
    rw [hdata, stripDelims_delimited d hd ps hhex, fromhexAux_octets ps hhex]
  have hlen : (octetsVal ps).length = 6 := by simp [octetsVal, h6]
  refine ⟨hdec, ?_, magicPacket_length _ hlen, magicPacket_take _, magicPacket_drop _⟩
  unfold send_wol
  rw [hdec]
  simp [hlen, okSockEnv]

/-- Witness for C1 at the colon-delimited address AA:BB:CC:DD:EE:FF. -/
theorem send_wol_valid_mac_witness :
    macDecode (String.mk (delimited ':'
        [('A','A'),('B','B'),('C','C'),('D','D'),('E','E'),('F','F')]))
      = some (octetsVal [('A','A'),('B','B'),('C','C'),('D','D'),('E','E'),('F','F')])
    ∧ send_wol "e" okSockEnv (String.mk (delimited ':'
        [('A','A'),('B','B'),('C','C'),('D','D'),('E','E'),('F','F')]))
        = ((true, "WoL packet sent to " ++ String.mk (delimited ':'
             [('A','A'),('B','B'),('C','C'),('D','D'),('E','E'),('F','F')])),
           ⟨true, true,
            some (magicPacket (octetsVal
                [('A','A'),('B','B'),('C','C'),('D','D'),('E','E'),('F','F')]),
              PC_BROADCAST, WOL_PORT)⟩)
    ∧ (magicPacket (octetsVal
        [('A','A'),('B','B'),('C','C'),('D','D'),('E','E'),('F','F')])).length = 102
    ∧ (magicPacket (octetsVal
        [('A','A'),('B','B'),('C','C'),('D','D'),('E','E'),('F','F')])).take 6
        = List.replicate 6 0xFF
    ∧ (magicPacket (octetsVal
        [('A','A'),('B','B'),('C','C'),('D','D'),('E','E'),('F','F')])).drop 6
        = (List.replicate 16 (octetsVal
            [('A','A'),('B','B'),('C','C'),('D','D'),('E','E'),('F','F')])).flatten :=
  send_wol_valid_mac "e" ':' (Or.inl rfl)
    [('A','A'),('B','B'),('C','C'),('D','D'),('E','E'),('F','F')] rfl (by decide)

/-- C2: for any input string that does not decode to exactly 6 bytes
after stripping delimiters (too short, too long, or with non-hex
characters), `send_wol` returns a failure result and performs no network
I/O: no socket is opened and no datagram is sent. -/
theorem send_wol_invalid_mac (fhErr : String) (env : SockEnv) (mac : String)
    (h : ∀ mb ∈ (macDecode mac).toList, mb.length ≠ 6) :
    (send_wol fhErr env mac).1.1 = false
    ∧ (send_wol fhErr env mac).2.opened = false
    ∧ (send_wol fhErr env mac).2.sent = none := by
  unfold send_wol
  cases hm : macDecode mac with
  | none => exact ⟨rfl, rfl, rfl⟩
  | some mb =>
    have h6 : mb.length ≠ 6 := h mb (by simp [hm])
    simp [h6, noTrace]

/-- Witness for C2 at the five-octet string AA:BB:CC:DD:EE. -/
theorem send_wol_invalid_mac_witness :
    (send_wol "e" okSockEnv "AA:BB:CC:DD:EE").1.1 = false
    ∧ (send_wol "e" okSockEnv "AA:BB:CC:DD:EE").2.opened = false
    ∧ (send_wol "e" okSockEnv "AA:BB:CC:DD:EE").2.sent = none :=
  send_wol_invalid_mac "e" okSockEnv "AA:BB:CC:DD:EE" (by decide)

/-- C9: `send_wol` never lets an exception reach its caller; its
embedding is a total function, every socket-level failure surfaces as a
failure result carrying the underlying error text, and whenever a socket
was opened it is also closed. -/
theorem send_wol_catches_socket_errors (fhErr : String) (env : SockEnv) (mac : String) :
    ((send_wol fhErr env mac).2.opened = true → (send_wol fhErr env mac).2.closed = true)
    ∧ (∀ e, firstSockError env = some e →
        (macDecode mac).isSome = true →
        (∀ mb ∈ (macDecode mac).toList, mb.length = 6) →
        (send_wol fhErr env mac).1 = (false, e)) := by
  obtain ⟨ec, eso, esd⟩ := env
  constructor
  · cases hm : macDecode mac with
    | none => simp [send_wol, hm, noTrace]
    | some mb =>
      by_cases h6 : mb.length = 6
      · cases ec <;> cases eso <;> cases esd <;> simp [send_wol, hm, h6, noTrace]
      · simp [send_wol, hm, h6, noTrace]
  · intro e he hs hlen
    cases hm : macDecode mac with
    | none => rw [hm] at hs; simp at hs
    | some mb =>
      have h6 : mb.length = 6 := hlen mb (by simp [hm])
      cases ec with
      | error e0 =>
        simp only [firstSockError, Option.some.injEq] at he
        simp [send_wol, hm, h6, he]
      | ok u =>
        cases u
        cases eso with
        | error e0 =>
          simp only [firstSockError, Option.some.injEq] at he
          simp [send_wol, hm, h6, he]
        | ok u2 =>
          cases u2
          cases esd with
          | error e0 =>
            simp only [firstSockError, Option.some.injEq] at he
            simp [send_wol, hm, h6, he]
          | ok u3 => simp [firstSockError] at he

/-- Witness for C9: a failing `sendto` on the configured MAC yields the
failure pair with the underlying message, and the open-implies-closed
part at the all-ok environment. -/
theorem send_wol_catches_socket_errors_witness :
    (send_wol "e" ⟨Except.ok (), Except.ok (), Except.error "Network is unreachable"⟩
        PC_MAC).1 = (false, "Network is unreachable")
    ∧ ((send_wol "e" okSockEnv PC_MAC).2.opened = true →
        (send_wol "e" okSockEnv PC_MAC).2.closed = true) :=
  ⟨(send_wol_catches_socket_errors "e"
      ⟨Except.ok (), Except.ok (), Except.error "Network is unreachable"⟩ PC_MAC).2
      "Network is unreachable" rfl (by decide) (by decide),
   (send_wol_catches_socket_errors "e" okSockEnv PC_MAC).1⟩

/-- C10: the decoder accepts more than the two documented delimiter
styles: hex decoding skips ASCII whitespace, so the space-separated
string AA BB CC DD EE FF decodes to 6 bytes and `send_wol` builds and
sends the normal 102-byte packet for it. -/
theorem send_wol_space_delimited :
    macDecode "AA BB CC DD EE FF" = some [0xAA, 0xBB, 0xCC, 0xDD, 0xEE, 0xFF]
    ∧ send_wol "e" okSockEnv "AA BB CC DD EE FF"
        = ((true, "WoL packet sent to AA BB CC DD EE FF"),
           ⟨true, true, some (magicPacket [0xAA, 0xBB, 0xCC, 0xDD, 0xEE, 0xFF],
             PC_BROADCAST, WOL_PORT)⟩)
    ∧ (magicPacket [0xAA, 0xBB, 0xCC, 0xDD, 0xEE, 0xFF]).length = 102 :=
  ⟨by decide, rfl, by decide⟩

/-! ## Claims about the CEC bridge -/

theorem leadsWith_refl (l : List Char) : leadsWith l l = true := by
  induction l with
  | nil => rfl
  | cons c cs ih => simp [leadsWith, ih]

theorem containsSeq_self (l : List Char) : containsSeq l l = true := by
  cases l with
  | nil => rfl
  | cons c cs => simp [containsSeq, leadsWith_refl]

theorem containsSeq_append_self (pre l : List Char) :
    containsSeq l (pre ++ l) = true := by
  induction pre with
  | nil => simpa using containsSeq_self l
  | cons p ps ih => simp [containsSeq, ih]

theorem data_append (a b : String) : (a ++ b).data = a.data ++ b.data := by
  obtain ⟨la⟩ := a
  obtain ⟨lb⟩ := b
  rfl

theorem powerFromLines_eq_find (ls : List (List Char)) :
    powerFromLines ls
      = (ls.find? (fun l => containsSeq MARKER (pyLower l))).map
          (fun l => if containsSeq ON_SUB ((pySplit (pyLower l) MARKER).getLastD [])
                    then "on" else "off") := by
  induction ls with
  | nil => rfl
  | cons l rest ih =>
    by_cases h : containsSeq MARKER (pyLower l) = true
    · simp [powerFromLines, List.find?_cons, h]
    · rw [powerFromLines.eq_2]
      simp only [Bool.not_eq_true] at h
      simp [List.find?_cons, h, ih]

/-- C3: for every captured output text, `tv_status` scans the lines
case-insensitively for one containing the marker "power status:"; the
first such line decides the state: state on exactly when the substring
after the marker contains "on", otherwise state off; and when no line
contains the marker the result is a failure whose message contains the
whole output text. -/
theorem tv_status_parse_spec (raw : String) :
    match (pySplitlines (pyStripS raw).data).find?
        (fun l => containsSeq MARKER (pyLower l)) with
    | some l =>
      tv_status (SubprocOutcome.exited 0 raw)
        = (true, if containsSeq ON_SUB ((pySplit (pyLower l) MARKER).getLastD [])
                 then "on" else "off")
    | none =>
      tv_status (SubprocOutcome.exited 0 raw)
        = (false, "could not parse power status: " ++ pyStripS raw)
        ∧ containsSeq (pyStripS raw).data
            ("could not parse power status: " ++ pyStripS raw).data = true := by
  have hts : tv_status (SubprocOutcome.exited 0 raw)
      = match powerFromLines (pySplitlines (pyStripS raw).data) with
        | some s => (true, s)
        | none => (false, "could not parse power status: " ++ pyStripS raw) := by
    simp [tv_status, cec_send]
  cases hf : (pySplitlines (pyStripS raw).data).find?
      (fun l => containsSeq MARKER (pyLower l)) with
  | some l =>
    simp only []
    rw [hts, powerFromLines_eq_find, hf]
    rfl
  | none =>
    simp only []
    refine ⟨?_, ?_⟩
    · rw [hts, powerFromLines_eq_find, hf]
      rfl
    · rw [data_append]
      exact containsSeq_append_self _ _

/-- C4: `cec_send` has exactly three outcomes: exit code zero gives
success with the trimmed stdout, a non-zero exit gives failure with the
trimmed stdout as the message, and a missing binary or an expired wait
bound gives failure with the fixed message "cec-client not found" or
"cec-client timed out" respectively. -/
theorem cec_send_outcomes (code : Int) (out command : String) :
    ((cec_send (SubprocOutcome.exited code out) command).1 = true ↔ code = 0)
    ∧ (cec_send (SubprocOutcome.exited code out) command).2 = pyStripS out
    ∧ cec_send SubprocOutcome.notFound command = (false, "cec-client not found")
    ∧ cec_send SubprocOutcome.timedOut command = (false, "cec-client timed out") := by
  refine ⟨?_, rfl, rfl, rfl⟩
  simp [cec_send]

/-! ## Claims about the HTTP layer -/

/-- C5 counterexample: the POST /wol handler never reads the request
body (the embedding has no body parameter because `Handler._handle`
reads none), so a request whose body is the empty JSON object is NOT
answered with status 400: with a working socket it is answered 200 with
a success body for the configured default MAC. -/
theorem wol_post_empty_body_cex :
    (Handler_handle "e" okSockEnv (SubprocOutcome.exited 0 "") "POST" "/wol").1.1 = 200
    ∧ (Handler_handle "e" okSockEnv (SubprocOutcome.exited 0 "") "POST" "/wol").1.1 ≠ 400
    ∧ (Handler_handle "e" okSockEnv (SubprocOutcome.exited 0 "") "POST" "/wol").1.2
        = Json.obj [("ok", Json.bool true),
                    ("message", Json.str "WoL packet sent to AA:BB:CC:DD:EE:FF")] :=
  ⟨rfl, by decide, rfl⟩

/-- C5 amended: a POST /wol request is dispatched to `send_wol` with the
configured default MAC regardless of any request body; the status is
200 on send success and 500 on send failure, never 400, and the body is
the ok/message envelope of the send result. -/
theorem wol_post_ignores_body (fhErr : String) (env : SockEnv) (proc : SubprocOutcome) :
    (Handler_handle fhErr env proc "POST" "/wol").1.1 ≠ 400
    ∧ (Handler_handle fhErr env proc "POST" "/wol").1.1
        = (if (send_wol fhErr env PC_MAC).1.1 then 200 else 500)
    ∧ (Handler_handle fhErr env proc "POST" "/wol").1.2
        = Json.obj [("ok", Json.bool (send_wol fhErr env PC_MAC).1.1),
                    ("message", Json.str (send_wol fhErr env PC_MAC).1.2)] := by
  have hr : routeLookup "POST" "/wol" = some Action.wol := rfl
  unfold Handler_handle
  rw [hr]
  refine ⟨?_, rfl, rfl⟩
  cases hb : (send_wol fhErr env PC_MAC).1.1 <;> simp [hb]

/-- C6 counterexample: GET /wol is not in the route table, so the health
check request is answered 404 with the not-found envelope, which has no
ok field; it is not a success response. -/
theorem get_wol_health_cex :
    Handler_handle "e" okSockEnv (SubprocOutcome.exited 0 "") "GET" "/wol"
      = ((404, Json.obj [("error", Json.str "not found")]), noTrace)
    ∧ jsonField
        (Handler_handle "e" okSockEnv (SubprocOutcome.exited 0 "") "GET" "/wol").1.2
        "ok" = none
    ∧ (404 : Nat) ≠ 200 :=
  ⟨rfl, rfl, by decide⟩

/-- C6 amended: the route table has no entry for GET /wol, so every GET
/wol request is answered 404 with the uniform not-found envelope,
regardless of external conditions. -/
theorem get_wol_not_routed (fhErr : String) (env : SockEnv) (proc : SubprocOutcome) :
    routeLookup "GET" "/wol" = none
    ∧ Handler_handle fhErr env proc "GET" "/wol"
        = ((404, Json.obj [("error", Json.str "not found")]), noTrace) :=
  ⟨rfl, rfl⟩

/-- C7 counterexample: the 404 body of an unmatched route has no ok
field, and a 500 failure response of a matched route has no error field
(its message sits in the message field instead). -/
theorem envelope_fields_cex :
    jsonField
      (Handler_handle "e" okSockEnv (SubprocOutcome.exited 0 "") "GET" "/nope").1.2
      "ok" = none
    ∧ (Handler_handle "e" ⟨Except.ok (), Except.ok (), Except.error "unreachable"⟩
        (SubprocOutcome.exited 0 "") "POST" "/wol").1.1 = 500
    ∧ jsonField
        (Handler_handle "e" ⟨Except.ok (), Except.ok (), Except.error "unreachable"⟩
          (SubprocOutcome.exited 0 "") "POST" "/wol").1.2
        "error" = none :=
  ⟨rfl, rfl, rfl⟩

/-- C7 amended: a matched route always answers with the two-field
envelope of an ok flag and a message (the failure text is carried in
message, not in an error field), with status 200 exactly when ok is
true and 500 otherwise; an unmatched route answers 404 with the
one-field error envelope, which carries no ok field. -/
theorem envelope_fields (fhErr : String) (env : SockEnv) (proc : SubprocOutcome)
    (method path : String) :
    match routeLookup method path with
    | some _ => ∃ b m,
        (Handler_handle fhErr env proc method path).1.2
          = Json.obj [("ok", Json.bool b), ("message", Json.str m)]
        ∧ (Handler_handle fhErr env proc method path).1.1 = (if b then 200 else 500)
    | none =>
      (Handler_handle fhErr env proc method path).1
        = (404, Json.obj [("error", Json.str "not found")]) := by
  cases hr : routeLookup method path with
  | none => simp [Handler_handle, hr]
  | some a =>
    simp only [Handler_handle, hr]
    exact ⟨_, _, rfl, rfl⟩

/-- C8: every (method, path) pair absent from the route table is
answered 404 with exactly the uniform error envelope, and with no
network side effect. -/
theorem unmatched_routes_404 (fhErr : String) (env : SockEnv) (proc : SubprocOutcome)
    (method path : String) (h : routeLookup method path = none) :
    Handler_handle fhErr env proc method path
      = ((404, Json.obj [("error", Json.str "not found")]), noTrace) := by
  simp [Handler_handle, h]

/-- Witness for C8 at GET /unknown/path. -/
theorem unmatched_routes_404_witness :
    Handler_handle "e" okSockEnv (SubprocOutcome.exited 0 "") "GET" "/unknown/path"
      = ((404, Json.obj [("error", Json.str "not found")]), noTrace) :=
  unmatched_routes_404 "e" okSockEnv (SubprocOutcome.exited 0 "") "GET" "/unknown/path" rfl

end Netmaster
